import Mathlib

/-!
Verification of the Comet deployment/scenario tooling against its specification.

The development shallowly embeds the core TypeScript components:

* the contract-graph crawler (`spider`/`crawl`/`maybeStore` in the Spider module),
* the `DeploymentManager` retry/idempotency/caching layer, and
* the scenario `Runner` (constraint solving, Cartesian-product enumeration,
  snapshot/revert bracketing).

External collaborators that are not part of the repository slice (the blockchain
provider, ABI readers from `RelationConfig.ts`, build-file importers from
`Import.ts`, and the `World` snapshot provider from `World.ts`) are modelled as
abstract environment functions, since the embedded code only ever treats their
results as opaque values.

Stateful TypeScript (mutable `Map`s, a mutated crawl context, a mutated world)
is embedded by explicit state passing.  JavaScript truthiness checks on strings
(`if (maybeExists)`) are modelled exactly: the empty string is the only falsy
string.  Fallible code returns `Except`.
-/

namespace Comet

abbrev Alias := String
abbrev Address := String

/-- Association-list embedding of a JS `Map` with string keys: `m.get(k)`. -/
def storeGet {α : Type} (m : List (String × α)) (k : String) : Option α :=
  match m with
  | [] => none
  | (k1, v1) :: rest => if k1 = k then some v1 else storeGet rest k

/-- Association-list embedding of `m.set(k, v)`: replace in place, else append. -/
def storeSet {α : Type} (m : List (String × α)) (k : String) (v : α) : List (String × α) :=
  match m with
  | [] => [(k, v)]
  | (k1, v1) :: rest => if k1 = k then (k, v) :: rest else (k1, v1) :: storeSet rest k v

/-- Errors thrown by the crawler (`throw new Error(...)` sites in Spider.ts),
plus `outOfFuel` for the fuel-indexed embedding of unbounded JS recursion. -/
inductive CrawlError where
  | aliasConflict (nm : Alias) (existingAddr : Address) (newAddr : Address)
  | configNonContract (template : String) (address : Address)
  | failedCrawl (nm : Alias) (address : Address)
  | outOfFuel
deriving DecidableEq

/-- Embedding of Spider.ts `maybeStore(alias, address, into)`.

JS source: `const maybeExists = into.get(alias); if (maybeExists) { if
(maybeExists === address) return false; else throw } else { into.set(alias,
address); return true }`.  The truthiness test makes an empty-string binding
behave like an absent one; real stores built by the crawler only ever hold
non-empty hex addresses. -/
def maybeStore (nm : Alias) (address : Address) (into : List (Alias × Address)) :
    Except CrawlError (Bool × List (Alias × Address)) :=
  match storeGet into nm with
  | some maybeExists =>
      if maybeExists = "" then .ok (true, storeSet into nm address)
      else if maybeExists = address then .ok (false, into)
      else .error (.aliasConflict nm maybeExists address)
  | none => .ok (true, storeSet into nm address)

/-- Alias template plus occurrence index (`AliasRender` in RelationConfig.ts). -/
structure AliasRender where
  template : String
  i : Nat
deriving DecidableEq

/-- Unit of crawl work: an address paired with its `AliasRender`. -/
structure DiscoverNode where
  address : Address
  aliasRender : AliasRender
deriving DecidableEq

/-- Relation configuration for one alias template / contract name.  The inner
configuration type `RIC` (`RelationInnerConfig`) is opaque to the crawler and
only consumed by the discovery oracle. -/
structure RelationConfig (RIC : Type) where
  artifact : Option String := none
  delegates : Option RIC := none
  relations : Option (List (String × RIC)) := none

/-- Build result: the build file's contract-type name plus the live contract
handle (`{ buildFile, contract }` in Spider.ts). -/
structure BuildR (C : Type) where
  contractName : String
  contract : C

/-- Shared traversal context: relation key to discovered contract handles
(`Ctx` from RelationConfig.ts, mutated in place by the crawler). -/
abbrev Ctx (C : Type) := List (String × List C)

/-- Embedding of `(context[subKey] = context[subKey] || []).push(subContract)`. -/
def ctxPush {C : Type} (ctx : Ctx C) (key : String) (c : C) : Ctx C :=
  match ctx with
  | [] => [(key, [c])]
  | (k1, cs) :: rest =>
      if k1 = key then (k1, cs ++ [c]) :: rest else (k1, cs) :: ctxPush rest key c

/-- External collaborators used by the crawler.  These functions live outside
the repository slice (provider `getCode`, `RelationConfig.ts` readers,
`Import.ts` fetchers, ethers contract construction) and are treated as opaque
oracles, per the spec's External Interfaces section. -/
structure CrawlEnv (C RIC : Type) where
  isContract : Address → Bool
  aliasTemplateKey : String → String
  localBuild : String → Address → BuildR C
  remoteBuild : Address → BuildR C
  readAlias : Option C → AliasRender → Ctx C → Alias
  readField : C → RIC → String → Ctx C → List Address
  configAlias : RIC → Option (List String)
  extendContract : Address → C → C → C

/-- Mutable state threaded through one `spider` invocation: the alias map, the
proxy map, the contract map, and the shared traversal context. -/
structure CrawlSt (C : Type) where
  aliases : List (Alias × Address)
  proxies : List (Alias × Address)
  contracts : List (Alias × C)
  ctx : Ctx C

/-- Embedding of Spider.ts `discoverNodes(contract, context, config,
defaultKeyAndTemplate)`.  `readField`/`getFieldKey` and `config.alias` live in
RelationConfig.ts (outside the slice) and are supplied by the environment.
JS indexes `templates[i % templates.length]`, which is `undefined` when
`config.alias` is an empty array; that unreachable corner is modelled as `""`. -/
def discoverNodes {C RIC : Type} (env : CrawlEnv C RIC) (contract : C) (config : RIC)
    (defaultKeyAndTemplate : String) (ctx : Ctx C) : List DiscoverNode :=
  let addresses := env.readField contract config defaultKeyAndTemplate ctx
  let templates :=
    match env.configAlias config with
    | some ts => ts
    | none => [defaultKeyAndTemplate]
  addresses.enum.map (fun p =>
    { address := p.2
      aliasRender := { template := templates.getD (p.1 % templates.length) "", i := p.1 } })

/-- Type of the recursive crawl entry point, abstracted so that the loop bodies
of `crawl` can be stated (and verified) for an arbitrary recursive call. -/
abbrev CrawlF (C : Type) := DiscoverNode → CrawlSt C → Except CrawlError (Alias × CrawlSt C)

/-- Embedding of the `for (const implNode of implNodes)` delegate loop inside
Spider.ts `maybeProcess`: crawl the delegate, require its contract handle,
extend the proxy's ABI with the delegate's, and record proxy → delegate in the
proxies map via `maybeStore`. -/
def processDelegates {C RIC : Type} (env : CrawlEnv C RIC) (crawlF : CrawlF C)
    (nm : Alias) (address : Address) :
    C → List DiscoverNode → CrawlSt C → Except CrawlError (C × CrawlSt C)
  | contract, [], st => .ok (contract, st)
  | contract, implNode :: rest, st =>
      match crawlF implNode st with
      | .error e => .error e
      | .ok (implAlias, st1) =>
          match storeGet st1.contracts implAlias with
          | none => .error (.failedCrawl implAlias implNode.address)
          | some implContract =>
              let contract1 := env.extendContract address implContract contract
              match maybeStore nm implNode.address st1.proxies with
              | .error e => .error e
              | .ok (_, proxies1) =>
                  processDelegates env crawlF nm address contract1 rest
                    { st1 with proxies := proxies1 }

/-- Embedding of the inner `for (const subNode of subNodes)` loop of the
relation discovery in Spider.ts `maybeProcess`: crawl each related address and
push its contract handle onto the shared context under the relation key. -/
def processSubNodes {C : Type} (crawlF : CrawlF C) (subKey : String) :
    List DiscoverNode → CrawlSt C → Except CrawlError (CrawlSt C)
  | [], st => .ok st
  | subNode :: rest, st =>
      match crawlF subNode st with
      | .error e => .error e
      | .ok (subAlias, st1) =>
          let st2 :=
            match storeGet st1.contracts subAlias with
            | some subContract => { st1 with ctx := ctxPush st1.ctx subKey subContract }
            | none => st1
          processSubNodes crawlF subKey rest st2

/-- Embedding of the outer `for (const [subKey, subConfig] of
Object.entries(config.relations))` loop in Spider.ts `maybeProcess`. -/
def processRelations {C RIC : Type} (env : CrawlEnv C RIC) (crawlF : CrawlF C) (contract : C) :
    List (String × RIC) → CrawlSt C → Except CrawlError (CrawlSt C)
  | [], st => .ok st
  | (subKey, subConfig) :: rest, st =>
      let subNodes := discoverNodes env contract subConfig subKey st.ctx
      match processSubNodes crawlF subKey subNodes st with
      | .error e => .error e
      | .ok st1 => processRelations env crawlF contract rest st1

/-- Embedding of Spider.ts `maybeProcess(alias, build, config)`: memoize by
alias via `maybeStore`; when freshly stored, process delegates, record the
contract handle, then process sub-relations. -/
def maybeProcess {C RIC : Type} (env : CrawlEnv C RIC) (crawlF : CrawlF C)
    (address : Address) (nm : Alias) (build : BuildR C) (config : RelationConfig RIC)
    (st : CrawlSt C) : Except CrawlError (Alias × CrawlSt C) :=
  match maybeStore nm address st.aliases with
  | .error e => .error e
  | .ok (false, _) => .ok (nm, st)
  | .ok (true, aliases1) =>
      let st1 := { st with aliases := aliases1 }
      let step :=
        match config.delegates with
        | some dcfg =>
            let implNodes :=
              discoverNodes env build.contract dcfg (nm ++ ":implementation") st1.ctx
            processDelegates env crawlF nm address build.contract implNodes st1
        | none => .ok (build.contract, st1)
      match step with
      | .error e => .error e
      | .ok (contract2, st2) =>
          let st3 := { st2 with contracts := storeSet st2.contracts nm contract2 }
          let step2 :=
            match config.relations with
            | some rels => processRelations env crawlF contract2 rels st3
            | none => .ok st3
          match step2 with
          | .error e => .error e
          | .ok st4 => .ok (nm, st4)

/-- Embedding of Spider.ts `crawl`.  JS recursion is unbounded (memoization by
alias terminates it); the embedding indexes recursion depth by fuel, with
`outOfFuel` marking exhaustion.  All claims are stated with enough fuel. -/
def crawl {C RIC : Type} (env : CrawlEnv C RIC)
    (relations : String → Option (RelationConfig RIC)) :
    Nat → CrawlF C
  | 0, _, _ => .error .outOfFuel
  | fuel + 1, node, st =>
      let address := node.address
      let aliasRender := node.aliasRender
      let crawlF := crawl env relations fuel
      match relations (env.aliasTemplateKey aliasRender.template) with
      | some aliasConfig =>
          if env.isContract address then
            match aliasConfig.artifact with
            | some artifact =>
                let build := env.localBuild artifact address
                let nm := env.readAlias (some build.contract) aliasRender st.ctx
                maybeProcess env crawlF address nm build aliasConfig st
            | none =>
                let build := env.remoteBuild address
                let nm := env.readAlias (some build.contract) aliasRender st.ctx
                maybeProcess env crawlF address nm build aliasConfig st
          else .error (.configNonContract aliasRender.template address)
      | none =>
          if env.isContract address then
            let build := env.remoteBuild address
            let nm := env.readAlias (some build.contract) aliasRender st.ctx
            let contractConfig :=
              match relations build.contractName with
              | some c => c
              | none => {}
            maybeProcess env crawlF address nm build contractConfig st
          else
            let nm := env.readAlias none aliasRender st.ctx
            match maybeStore nm address st.aliases with
            | .error e => .error e
            | .ok (_, aliases1) => .ok (nm, { st with aliases := aliases1 })

/-- Embedding of Spider.ts `spider(cache, network, hre, relations, roots)`:
seed one work item per root and crawl each in order from an empty state. -/
def spiderRun {C RIC : Type} (env : CrawlEnv C RIC)
    (relations : String → Option (RelationConfig RIC)) (fuel : Nat)
    (roots : List (Alias × Address)) : Except CrawlError (CrawlSt C) :=
  match roots with
  | [] => .ok { aliases := [], proxies := [], contracts := [], ctx := [] }
  | _ =>
      let rec go : List (Alias × Address) → CrawlSt C → Except CrawlError (CrawlSt C)
        | [], st => .ok st
        | (nm, address) :: rest, st =>
            match crawl env relations fuel
                { aliasRender := { template := nm, i := 0 }, address := address } st with
            | .error e => .error e
            | .ok (_, st1) => go rest st1
      go roots { aliases := [], proxies := [], contracts := [], ctx := [] }

/-! ## DeploymentManager: retry, idempotent, deploy/clone/existing

The remote operation under `retry` is modelled as a stream `op : Nat → Except
E A` giving the outcome of each successive invocation; `retry` returns the
final outcome together with the total number of invocations performed.  The
timeout wrapper (`asyncCallWithTimeout`, Utils.ts), the warning log, the
signer-nonce reset and the backoff sleep have no bearing on the returned value
or the invocation count and are not modelled. -/

/-- Embedding of `DeploymentManager.retry(fn, retries = 5, timeLimit?, wait =
250)`: run the operation; on success return its value, on failure re-raise
when `retries === 0`, otherwise recurse with `retries - 1`.  `k` is the index
of the next invocation (initially 0). -/
def retry {E A : Type} (op : Nat → Except E A) (retries : Nat) (k : Nat) :
    Except E A × Nat :=
  match op k with
  | .ok a => (.ok a, k + 1)
  | .error e =>
      match retries with
      | 0 => (.error e, k + 1)
      | r + 1 => retry op r (k + 1)

/-- Embedding of `DeploymentManager.idempotent(condition, action, retries)`:
`if (await condition()) return this.retry(action, retries);`.  `cond` is the
truthiness of the resolved condition; when it is false the JS function returns
`undefined`, modelled as `none`.  The second component counts the invocations
of `action`. -/
def idempotent {E A : Type} (cond : Bool) (action : Nat → Except E A)
    (retries : Nat) : Option (Except E A) × Nat :=
  if cond then
    let r := retry action retries 0
    (some r.1, r.2)
  else (none, 0)

/-- In-memory slice of a `DeploymentManager` relevant to the idempotency
contract: the contracts cache (assumed already populated, as `contract()`
consults it), the persisted alias cache written by `putAlias`, and the deploy
counter incremented by `_deploy`/`_deployBuild`. -/
structure DM (C : Type) where
  contractsCache : List (Alias × C)
  aliases : List (Alias × Address)
  counter : Nat

/-- Embedding of `DeploymentManager.contract(alias)`: look the alias up in the
(populated) contracts cache.  Connecting a signer to the handle is a no-op in
this model. -/
def DM.contract {C : Type} (dm : DM C) (nm : Alias) : Option C :=
  storeGet dm.contractsCache nm

/-- Embedding of `DeploymentManager.putAlias(alias, contract)`: persist
alias → contract.address in the alias cache and update the contracts cache. -/
def DM.putAlias {C : Type} (addrOf : C → Address) (dm : DM C) (nm : Alias) (c : C) : DM C :=
  { dm with
      aliases := storeSet dm.aliases nm (addrOf c)
      contractsCache := storeSet dm.contractsCache nm c }

/-- The underlying action shared by `deploy` and `clone`: construct the
contract (`_deploy`/`_deployBuild`, which increments `counter`), then
`putAlias` and return the new handle.  `mk` is the contract handle the
construction produces (an oracle for the remote deployment). -/
def DM.deployNew {C : Type} (addrOf : C → Address) (dm : DM C) (nm : Alias) (mk : C) :
    C × DM C :=
  let dm1 := { dm with counter := dm.counter + 1 }
  (mk, DM.putAlias addrOf dm1 nm mk)

/-- Embedding of `DeploymentManager.deploy(alias, contractFile, deployArgs,
force?, retries?)`: if the alias is bound and not forced, return the existing
handle unchanged; otherwise `_deploy` + `putAlias`. -/
def DM.deploy {C : Type} (addrOf : C → Address) (dm : DM C) (nm : Alias) (mk : C)
    (force : Bool) : C × DM C :=
  match DM.contract dm nm with
  | some maybeExisting =>
      if force then DM.deployNew addrOf dm nm mk else (maybeExisting, dm)
  | none => DM.deployNew addrOf dm nm mk

/-- Embedding of `DeploymentManager.clone(alias, address, deployArgs,
fromNetwork, force?, retries?)`: same idempotency shape as `deploy`, with the
underlying action `import` + `_deployBuild` (which increments `counter`) +
`putAlias`; `mk` is the handle that action produces. -/
def DM.clone {C : Type} (addrOf : C → Address) (dm : DM C) (nm : Alias) (mk : C)
    (force : Bool) : C × DM C :=
  match DM.contract dm nm with
  | some maybeExisting =>
      if force then DM.deployNew addrOf dm nm mk else (maybeExisting, dm)
  | none => DM.deployNew addrOf dm nm mk

/-- Embedding of `DeploymentManager.existing(alias, address)`: if the alias is
bound, return the existing handle; otherwise `import` + `getEthersContract`
(no counter increment) + `putAlias`. -/
def DM.existing {C : Type} (addrOf : C → Address) (dm : DM C) (nm : Alias) (mk : C) :
    C × DM C :=
  match DM.contract dm nm with
  | some maybeExisting => (maybeExisting, dm)
  | none => (mk, DM.putAlias addrOf dm nm mk)

/-! ## Scenario Runner

Asynchronous, exception-throwing, world-mutating TypeScript is embedded with
explicit world state `W` and `Except` for thrown errors.  The `World`
snapshot/revert collaborator (World.ts) is not part of the repository slice;
following the spec, a snapshot captures the whole world state and
`_revertAndSnapshot` restores exactly the captured state and snapshots it
again.  The loop state carries instrumentation counters (trials started,
property executions, reverts performed, the world at each trial start) so the
claims about execution counts and the snapshot bracket can be stated. -/

/-- A `Solution<T>`: `(ctx, world) => Promise<T | null>`; returning `null`
keeps the previous context (`ctx = (await solution(ctx, world)) || ctx`). -/
abbrev Solution (X W E : Type) := X → W → Except E (Option X × W)

/-- Runner.ts `identity`: `async (ctx, _world) => ctx` — returns the context
unchanged and never touches the world. -/
def identity {X W E : Type} : Solution X W E :=
  fun ctx w => .ok (some ctx, w)

/-- The value a constraint's `solve` resolves to: `Solution | Solution[] |
null` (with `undefined` behaving like `null` under `s == null`). -/
inductive SolveRet (X W E : Type) where
  | nullRet
  | single (s : Solution X W E)
  | listRet (ss : List (Solution X W E))

/-- Embedding of Runner.ts `mapSolution`: `null` maps to `[identity]`,
otherwise `asList` (`[].concat(v)`) wraps a single solution and keeps a list
as is. -/
def mapSolution {X W E : Type} : SolveRet X W E → List (Solution X W E)
  | .nullRet => [identity]
  | .single s => [s]
  | .listRet ss => ss

/-- Embedding of the Runner.ts generator `combos`: the Cartesian product of
the choice lists, in generator order. -/
def combos {α : Type} : List (List α) → List (List α)
  | [] => [[]]
  | choices0 :: rest =>
      choices0.flatMap (fun option => (combos rest).map (fun combo => option :: combo))

/-- A scenario constraint: `solve(requirements, context, world)` and
`check(requirements, context, world)`, both of which may throw and may mutate
the world. -/
structure Constraint (R X W E : Type) where
  solve : R → X → W → Except E (SolveRet X W E)
  check : R → X → W → Except E W

/-- The slice of a `Scenario` the runner consumes: requirements, constraints,
`env.initializer`, `env.transformer` and the property.  The property resolves
to an optional transaction receipt, modelled by its `cumulativeGasUsed`, and
may mutate the world. -/
structure Scenario (R T X W E : Type) where
  requirements : R
  constraints : List (Constraint R X W E)
  initializer : W → X
  transformer : X → Except E T
  property : T → X → W → Except E (Option Nat × W)

/-- `Promise.all(constraints.map(c => c.solve(scenario.requirements, context,
world)))`: all solve results, or the first thrown error (which `run` does not
catch). -/
def solveAll {R X W E : Type} (cs : List (Constraint R X W E)) (req : R) (ctx : X)
    (w : W) : Except E (List (SolveRet X W E)) :=
  match cs with
  | [] => .ok []
  | c :: rest =>
      match c.solve req ctx w with
      | .error e => .error e
      | .ok r =>
          match solveAll rest req ctx w with
          | .error e => .error e
          | .ok rs => .ok (r :: rs)

/-- The `for (const solution of combo) ctx = (await solution(ctx, world)) ||
ctx` loop. -/
def applySolutions {X W E : Type} :
    List (Solution X W E) → X → W → Except E (X × W)
  | [], ctx, w => .ok (ctx, w)
  | s :: rest, ctx, w =>
      match s ctx w with
      | .error e => .error e
      | .ok (octx, w1) => applySolutions rest (octx.getD ctx) w1

/-- The `for (const constraint of constraints) await constraint.check(...)`
loop. -/
def runChecks {R X W E : Type} (req : R) (ctx : X) :
    List (Constraint R X W E) → W → Except E W
  | [], w => .ok w
  | c :: rest, w =>
      match c.check req ctx w with
      | .error e => .error e
      | .ok w1 => runChecks req ctx rest w1

/-- One trial body, from the fresh `getContext(world)` through solutions,
checks, transformer and property.  The boolean records whether the property
was reached (for the execution count); it is `true` exactly when solutions,
checks and transformer all succeeded. -/
def trialOutcome {R T X W E : Type} (sc : Scenario R T X W E)
    (combo : List (Solution X W E)) (w : W) : Except E (Option Nat × W) × Bool :=
  match applySolutions combo (sc.initializer w) w with
  | .error e => (.error e, false)
  | .ok (ctx, w1) =>
      match runChecks sc.requirements ctx sc.constraints w1 with
      | .error e => (.error e, false)
      | .ok w2 =>
          match sc.transformer ctx with
          | .error e => (.error e, false)
          | .ok t => (sc.property t ctx w2, true)

/-- Loop state of `Runner.run`: the current world and snapshot plus the JS
locals (`numSolutionSets`, `cumulativeGas`) and instrumentation (trials
started, property executions, reverts performed, world value at each trial
start). -/
structure LoopState (W : Type) where
  world : W
  snap : W
  numSolutionSets : Nat
  cumulativeGas : Nat
  propRuns : Nat
  trials : Nat
  reverts : Nat
  trialWorlds : List W

/-- The fields of `generateResult` the claims are about.  `gasUsed` is the JS
division `totalGas / numSolutionSets` and is kept unevaluated as its two
operands. -/
structure RunResult (E : Type) where
  totalGas : Nat
  numSolutionSets : Nat
  error : Option E

/-- Modelled from the spec: `World._revertAndSnapshot(worldSnapshot)`
(World.ts is outside the repository slice).  Reverting restores exactly the
state the snapshot captured and takes a fresh snapshot of that state, so the
snapshot value is unchanged. -/
def revertAndSnapshot {W : Type} (ls : LoopState W) : LoopState W :=
  { ls with world := ls.snap, reverts := ls.reverts + 1 }

/-- Success result: `generateResult(base, scenario, startTime, cumulativeGas,
numSolutionSets)`. -/
def mkSuccess {W : Type} (E : Type) (ls : LoopState W) : RunResult E :=
  { totalGas := ls.cumulativeGas, numSolutionSets := ls.numSolutionSets, error := none }

/-- Failure result: `generateResult(base, scenario, startTime, 0,
++numSolutionSets, e)`. -/
def mkFailure {W E : Type} (ls : LoopState W) (e : E) : RunResult E :=
  { totalGas := 0, numSolutionSets := ls.numSolutionSets + 1, error := some e }

/-- The `for (const combo of combos(...))` loop of `Runner.run`, with its
`try`/`catch`/`finally`: on success accumulate gas and `numSolutionSets++`
then revert-and-snapshot; on a thrown error build the failure result, still
running the `finally` revert, and stop. -/
def runCombos {R T X W E : Type} (sc : Scenario R T X W E) :
    List (List (Solution X W E)) → LoopState W → RunResult E × LoopState W
  | [], ls => (mkSuccess E ls, ls)
  | combo :: rest, ls =>
      let ls1 := { ls with
                     trials := ls.trials + 1
                     trialWorlds := ls.trialWorlds ++ [ls.world] }
      match trialOutcome sc combo ls1.world with
      | (.ok (receipt, _), _) =>
          let gas :=
            match receipt with
            | some g => ls1.cumulativeGas + g
            | none => ls1.cumulativeGas
          let ls2 := { ls1 with
                         cumulativeGas := gas
                         propRuns := ls1.propRuns + 1
                         numSolutionSets := ls1.numSolutionSets + 1 }
          runCombos sc rest (revertAndSnapshot ls2)
      | (.error e, ran) =>
          let ls2 := { ls1 with propRuns := ls1.propRuns + (if ran then 1 else 0) }
          let ls3 := revertAndSnapshot ls2
          (mkFailure ls3 e, ls3)

/-- The loop state right after `Runner.run` takes its initial snapshot. -/
def initLS {W : Type} (w0 : W) : LoopState W :=
  { world := w0, snap := w0, numSolutionSets := 0, cumulativeGas := 0,
    propRuns := 0, trials := 0, reverts := 0, trialWorlds := [] }

/-- Embedding of `Runner.run(scenario)`: snapshot, build the initial context,
solve all constraints (a thrown solve error propagates out of `run` uncaught,
before any trial and before any revert), then enumerate `[[identity]] ++
solutionChoices` and run the trial loop. -/
def run {R T X W E : Type} (sc : Scenario R T X W E) (w0 : W) :
    Except E (RunResult E) × LoopState W :=
  let ls0 := initLS w0
  let context := sc.initializer w0
  match solveAll sc.constraints sc.requirements context w0 with
  | .error e => (.error e, ls0)
  | .ok rets =>
      let solutionChoices := rets.map mapSolution
      let comboList := combos ([[identity]] ++ solutionChoices)
      let out := runCombos sc comboList ls0
      (.ok out.1, out.2)

/-! ## Concrete instances used by witnesses and counterexamples -/

/-- A solution over `X = W = Nat` that adds `n` to the context and leaves the
world alone. -/
def addSol (n : Nat) : Solution Nat Nat String :=
  fun ctx w => .ok (some (ctx + n), w)

/-- A constraint whose `solve` returns the given value and whose `check`
always passes. -/
def okCheckCon (r : SolveRet Nat Nat String) : Constraint Unit Nat Nat String :=
  { solve := fun _ _ _ => .ok r
    check := fun _ _ w => .ok w }

/-- A scenario with two constraints of solution-set sizes 2 and 3 whose trials
all succeed. -/
def scSizes23 : Scenario Unit Nat Nat Nat String :=
  { requirements := ()
    constraints := [okCheckCon (.listRet [identity, identity]),
                    okCheckCon (.listRet [identity, identity, identity])]
    initializer := fun w => w
    transformer := fun ctx => .ok ctx
    property := fun _ _ w => .ok (some 5, w) }

/-- A scenario with solution-set sizes 2 and 3 (6 combinations) whose property
throws exactly on the second enumerated combination: from world 0 the
transformed contexts enumerate as 0, 1, 2, 10, 11, 12 in combination order. -/
def scFail2 : Scenario Unit Nat Nat Nat String :=
  { requirements := ()
    constraints := [okCheckCon (.listRet [addSol 0, addSol 10]),
                    okCheckCon (.listRet [addSol 0, addSol 1, addSol 2])]
    initializer := fun w => w
    transformer := fun ctx => .ok ctx
    property := fun t _ w => if t = 1 then .error "boom" else .ok (none, w) }

/-- A scenario with one constraint whose `solve` throws. -/
def scSolveThrows : Scenario Unit Nat Nat Nat String :=
  { requirements := ()
    constraints := [{ solve := fun _ _ _ => .error "solve boom"
                      check := fun _ _ w => .ok w }]
    initializer := fun w => w
    transformer := fun ctx => .ok ctx
    property := fun _ _ w => .ok (none, w) }

/-- A crawl environment over trivial contract data in which no address holds
contract code. -/
def envNoCode : CrawlEnv Unit Unit :=
  { isContract := fun _ => false
    aliasTemplateKey := fun s => s
    localBuild := fun _ _ => { contractName := "X", contract := () }
    remoteBuild := fun _ => { contractName := "X", contract := () }
    readAlias := fun _ r _ => r.template
    readField := fun _ _ _ _ => []
    configAlias := fun _ => none
    extendContract := fun _ _ _ => () }

/-- A relation-config map with a single entry for the `comet` alias template. -/
def relsComet : String → Option (RelationConfig Unit) :=
  fun s => if s = "comet" then some {} else none

/-- A stub recursive crawl that aliases each node by its template and records
its contract handle, touching neither the alias nor the proxy store. -/
def crawlStub : CrawlF Unit :=
  fun node st =>
    .ok (node.aliasRender.template,
      { st with contracts := storeSet st.contracts node.aliasRender.template () })

/-! ## Lemmas about the runner loop -/

/-- Cardinality of the Cartesian-product enumeration: `combos` yields exactly
the product of the choice-list sizes. -/
theorem combos_length {α : Type} :
    ∀ L : List (List α), (combos L).length = (L.map List.length).prod := by
  intro L
  induction L with
  | nil => simp [combos]
  | cons c rest ih =>
      have hconst :
          (List.length ∘ fun option : α => List.map (fun combo => option :: combo) (combos rest))
            = fun _ : α => (combos rest).length := by
        funext o
        simp
      simp [combos, hconst, List.map_const', List.sum_replicate, smul_eq_mul, ih]

/-- Every element of a combination comes from the corresponding choice list,
so a pointwise property of all choices holds of all combination elements. -/
theorem mem_combos {α : Type} {P : α → Prop} :
    ∀ L : List (List α), (∀ l ∈ L, ∀ x ∈ l, P x) →
      ∀ c ∈ combos L, ∀ x ∈ c, P x := by
  intro L
  induction L with
  | nil =>
      intro _ c hc x hx
      simp [combos] at hc
      subst hc
      simp at hx
  | cons l rest ih =>
      intro hP c hc x hx
      simp only [combos, List.mem_flatMap, List.mem_map] at hc
      obtain ⟨o, ho, c1, hc1, rfl⟩ := hc
      rcases List.mem_cons.mp hx with rfl | hx1
      · exact hP l (by simp) x ho
      · exact ih (fun l1 hl1 => hP l1 (by simp [hl1])) c1 hc1 x hx1

/-- Applying a combination made of `identity` solutions returns the context
and world unchanged. -/
theorem applySolutions_ident {X W E : Type} :
    ∀ combo : List (Solution X W E), (∀ x ∈ combo, x = identity) →
      ∀ (ctx : X) (w : W), applySolutions combo ctx w = .ok (ctx, w) := by
  intro combo
  induction combo with
  | nil => intro _ ctx w; rfl
  | cons s rest ih =>
      intro h ctx w
      have hs : s = identity := h s (by simp)
      subst hs
      have := ih (fun x hx => h x (by simp [hx])) ctx w
      simpa [applySolutions, identity] using this

/-- When every remaining trial succeeds, the loop completes with one property
execution, one `numSolutionSets` increment, one trial and one revert per
combination, keeping the world at the snapshot baseline. -/
theorem runCombos_success {R T X W E : Type} (sc : Scenario R T X W E) :
    ∀ (L : List (List (Solution X W E))) (ls : LoopState W), ls.world = ls.snap →
      (∀ c ∈ L, ∃ v, (trialOutcome sc c ls.snap).1 = .ok v) →
      ∃ ls2, runCombos sc L ls = (mkSuccess E ls2, ls2) ∧
        ls2.numSolutionSets = ls.numSolutionSets + L.length ∧
        ls2.propRuns = ls.propRuns + L.length ∧
        ls2.trials = ls.trials + L.length ∧
        ls2.reverts = ls.reverts + L.length ∧
        ls2.world = ls.snap ∧ ls2.snap = ls.snap := by
  intro L
  induction L with
  | nil =>
      intro ls hinv _
      exact ⟨ls, rfl, by simp, by simp, by simp, by simp, hinv, rfl⟩
  | cons combo rest ih =>
      intro ls hinv hok
      obtain ⟨v, hv⟩ := hok combo (by simp)
      obtain ⟨receipt, w1⟩ := v
      rcases hq : trialOutcome sc combo ls.world with ⟨out, ran⟩
      rw [← hinv] at hv
      rw [hq] at hv
      simp only at hv
      subst hv
      simp only [runCombos, hq]
      clear hq
      obtain ⟨ls2, h2, hn, hp, ht, hr, hw, hsn⟩ :=
        ih { world := ls.snap, snap := ls.snap
             numSolutionSets := ls.numSolutionSets + 1
             cumulativeGas :=
               match receipt with
               | some g => ls.cumulativeGas + g
               | none => ls.cumulativeGas
             propRuns := ls.propRuns + 1, trials := ls.trials + 1
             reverts := ls.reverts + 1
             trialWorlds := ls.trialWorlds ++ [ls.world] }
           rfl
           (fun c hc => hok c (by simp [hc]))
      have e1 : ls2.numSolutionSets = ls.numSolutionSets + 1 + rest.length := hn
      have e2 : ls2.propRuns = ls.propRuns + 1 + rest.length := hp
      have e3 : ls2.trials = ls.trials + 1 + rest.length := ht
      have e4 : ls2.reverts = ls.reverts + 1 + rest.length := hr
      refine ⟨ls2, ?_, by simp only [List.length_cons]; omega,
        by simp only [List.length_cons]; omega, by simp only [List.length_cons]; omega,
        by simp only [List.length_cons]; omega, hw, hsn⟩
      exact h2

/-- When every trial before the `bad` combination succeeds and the `bad` trial
throws `e`, the loop stops at `bad` with the failure result, never reaching the
later combinations, having still reverted once per started trial. -/
theorem runCombos_fail {R T X W E : Type} (sc : Scenario R T X W E)
    (bad : List (Solution X W E)) (post : List (List (Solution X W E))) (e : E) :
    ∀ (pre : List (List (Solution X W E))) (ls : LoopState W), ls.world = ls.snap →
      (∀ c ∈ pre, ∃ v, (trialOutcome sc c ls.snap).1 = .ok v) →
      (trialOutcome sc bad ls.snap).1 = .error e →
      ∃ ls2, runCombos sc (pre ++ bad :: post) ls = (mkFailure ls2 e, ls2) ∧
        ls2.numSolutionSets = ls.numSolutionSets + pre.length ∧
        ls2.trials = ls.trials + pre.length + 1 ∧
        ls2.reverts = ls.reverts + pre.length + 1 ∧
        ls2.world = ls.snap ∧ ls2.snap = ls.snap := by
  intro pre
  induction pre with
  | nil =>
      intro ls hinv _ hbad
      rcases hq : trialOutcome sc bad ls.world with ⟨out, ran⟩
      rw [← hinv] at hbad
      rw [hq] at hbad
      simp only at hbad
      subst hbad
      simp only [List.nil_append, runCombos, hq]
      refine ⟨_, rfl, ?_, ?_, ?_, ?_, ?_⟩ <;> simp [revertAndSnapshot]
  | cons c pre ih =>
      intro ls hinv hok hbad
      obtain ⟨v, hv⟩ := hok c (by simp)
      obtain ⟨receipt, w1⟩ := v
      rcases hq : trialOutcome sc c ls.world with ⟨out, ran⟩
      rw [← hinv] at hv
      rw [hq] at hv
      simp only at hv
      subst hv
      simp only [List.cons_append, runCombos, hq]
      clear hq
      obtain ⟨ls2, h2, hn, ht, hr, hw, hsn⟩ :=
        ih { world := ls.snap, snap := ls.snap
             numSolutionSets := ls.numSolutionSets + 1
             cumulativeGas :=
               match receipt with
               | some g => ls.cumulativeGas + g
               | none => ls.cumulativeGas
             propRuns := ls.propRuns + 1, trials := ls.trials + 1
             reverts := ls.reverts + 1
             trialWorlds := ls.trialWorlds ++ [ls.world] }
           rfl (fun c1 hc1 => hok c1 (by simp [hc1])) hbad
      have e1 : ls2.numSolutionSets = ls.numSolutionSets + 1 + pre.length := hn
      have e3 : ls2.trials = ls.trials + 1 + pre.length + 1 := ht
      have e4 : ls2.reverts = ls.reverts + 1 + pre.length + 1 := hr
      refine ⟨ls2, h2, by simp only [List.length_cons]; omega,
        by simp only [List.length_cons]; omega, by simp only [List.length_cons]; omega,
        hw, hsn⟩

/-- Unconditionally (whatever each trial does), the loop performs exactly one
revert-and-snapshot per started trial, keeps the snapshot fixed, leaves the
world at the snapshot baseline, and every trial starts from that baseline. -/
theorem runCombos_bracket {R T X W E : Type} (sc : Scenario R T X W E) :
    ∀ (L : List (List (Solution X W E))) (ls : LoopState W), ls.world = ls.snap →
      ∃ k, (runCombos sc L ls).2.snap = ls.snap ∧
        (runCombos sc L ls).2.world = ls.snap ∧
        (runCombos sc L ls).2.trials = ls.trials + k ∧
        (runCombos sc L ls).2.reverts = ls.reverts + k ∧
        (runCombos sc L ls).2.trialWorlds = ls.trialWorlds ++ List.replicate k ls.snap := by
  intro L
  induction L with
  | nil =>
      intro ls hinv
      exact ⟨0, rfl, hinv, by simp [runCombos], by simp [runCombos], by simp [runCombos]⟩
  | cons combo rest ih =>
      intro ls hinv
      rcases hq : trialOutcome sc combo ls.world with ⟨out, ran⟩
      rw [hinv] at hq
      rcases out with e | ⟨receipt, w1⟩
      · refine ⟨1, ?_, ?_, ?_, ?_, ?_⟩ <;>
          simp [runCombos, hq, revertAndSnapshot, hinv, List.replicate_succ]
      · simp only [runCombos, hinv, hq]
        simp only [revertAndSnapshot]
        clear hq
        obtain ⟨k, hsn, hw, ht, hr, htw⟩ :=
          ih { world := ls.snap, snap := ls.snap
               numSolutionSets := ls.numSolutionSets + 1
               cumulativeGas :=
                 match receipt with
                 | some g => ls.cumulativeGas + g
                 | none => ls.cumulativeGas
               propRuns := ls.propRuns + 1, trials := ls.trials + 1
               reverts := ls.reverts + 1
               trialWorlds := ls.trialWorlds ++ [ls.snap] }
            rfl
        have e3 : _ = ls.trials + 1 + k := ht
        have e4 : _ = ls.reverts + 1 + k := hr
        have e5 : _ = (ls.trialWorlds ++ [ls.snap]) ++ List.replicate k ls.snap := htw
        refine ⟨k + 1, hsn, hw, by omega, by omega, ?_⟩
        rw [e5, List.append_assoc]
        simp [List.replicate_succ]

/-! ## Claims about the scenario runner -/

/-- C1: in a run where every solve succeeds and no trial throws, `Runner.run`
enumerates the Cartesian product `[identity] × solutions_1 × … × solutions_n`
(whose size is exactly `s_1 * … * s_n`, the product of the normalized
solution-list sizes) and executes the scenario's property exactly that many
times, once per combination, reporting the count as `numSolutionSets` with no
error; with zero constraints the product is the singleton `[[identity]]` and
the property runs exactly once against the initial context. -/
theorem runner_executes_product {R T X W E : Type} (sc : Scenario R T X W E) (w0 : W)
    (rets : List (SolveRet X W E))
    (hsolve : solveAll sc.constraints sc.requirements (sc.initializer w0) w0 = .ok rets)
    (hok : ∀ c ∈ combos ([[identity]] ++ rets.map mapSolution),
      ∃ v, (trialOutcome sc c w0).1 = .ok v) :
    ∃ r : RunResult E,
      (run sc w0).1 = .ok r ∧ r.error = none ∧
      (run sc w0).2.propRuns = (rets.map (fun s => (mapSolution s).length)).prod ∧
      r.numSolutionSets = (rets.map (fun s => (mapSolution s).length)).prod ∧
      (combos ([[identity]] ++ rets.map mapSolution)).length
        = (rets.map (fun s => (mapSolution s).length)).prod := by
  obtain ⟨ls2, h2, hn, hp, ht, hr, hw, hsn⟩ :=
    runCombos_success sc (combos ([[identity]] ++ rets.map mapSolution)) (initLS w0) rfl hok
  have hrun : run sc w0 = (.ok (mkSuccess E ls2), ls2) := by
    simp only [run, hsolve]
    rw [h2]
  have hlen : (combos ([[identity]] ++ rets.map mapSolution)).length
      = (rets.map (fun s => (mapSolution s).length)).prod := by
    have h : List.map List.length ([[identity]] ++ rets.map mapSolution)
        = 1 :: rets.map (fun s => (mapSolution s).length) := by
      rw [List.map_append, List.map_map]
      rfl
    rw [combos_length, h, List.prod_cons, one_mul]
  refine ⟨mkSuccess E ls2, by rw [hrun], rfl, ?_, ?_, hlen⟩
  · rw [hrun]
    show ls2.propRuns = _
    have hp0 : ls2.propRuns = (initLS w0).propRuns
        + (combos ([[identity]] ++ rets.map mapSolution)).length := hp
    simp only [initLS] at hp0
    omega
  · have hn0 : ls2.numSolutionSets = (initLS w0).numSolutionSets
        + (combos ([[identity]] ++ rets.map mapSolution)).length := hn
    simp only [initLS] at hn0
    have : (mkSuccess E ls2).numSolutionSets = ls2.numSolutionSets := rfl
    omega

/-- C1 witness: the scenario `scSizes23` has constraints with solution-set
sizes 2 and 3 and no failing trial, and the runner executes its property
exactly 6 times, reporting `numSolutionSets = 6`. -/
theorem runner_executes_product_witness :
    ∃ r : RunResult String,
      (run scSizes23 0).1 = .ok r ∧ r.error = none ∧
      (run scSizes23 0).2.propRuns = 6 ∧ r.numSolutionSets = 6 := by
  obtain ⟨r, h1, h2, h3, h4, _⟩ :=
    runner_executes_product scSizes23 0
      [.listRet [identity, identity], .listRet [identity, identity, identity]]
      rfl
      (by
        intro c hc
        have hall : ∀ x ∈ c, x = (identity : Solution Nat Nat String) := by
          refine mem_combos _ ?_ c hc
          intro l hl x hx
          simp only [mapSolution, List.map_cons, List.map_nil, List.cons_append,
            List.nil_append, List.mem_cons, List.not_mem_nil, or_false] at hl
          rcases hl with rfl | rfl | rfl <;> simpa using hx
        have happ := applySolutions_ident c hall 0 0
        exact ⟨(some 5, 0), by simp [trialOutcome, scSizes23, happ, runChecks, okCheckCon]⟩)
  exact ⟨r, h1, h2, by simpa [mapSolution] using h3, by simpa [mapSolution] using h4⟩

/-- C2 counterexample: in `scSolveThrows` a constraint's `solve` throws; the
run aborts, but contrary to the claim's assertion that any thrown error during
solve/check/property still executes the snapshot/revert in the `finally` path
and yields a failure result counting the trials attempted, the error
propagates out of `Runner.run` raw (no failure `Result` is built) and no
revert is ever performed: the solve call happens before the trial loop and
outside its `try`/`finally`. -/
theorem runner_solve_throw_no_revert :
    (run scSolveThrows 0).1 = .error "solve boom" ∧
    (run scSolveThrows 0).2.reverts = 0 ∧
    (run scSolveThrows 0).2.trials = 0 :=
  ⟨rfl, rfl, rfl⟩

/-- C2 (amended): if every solve succeeds and the k-th enumerated combination
is the first whose trial throws (applying a solution, a check, the
transformer, or the property), the run stops immediately: it returns a
failure result with `numSolutionSets = k` and `totalGas = 0`, exactly `k`
trials are started (the later combinations are never executed) and exactly
`k` reverts are performed — the `finally` revert still runs on the failing
trial.  (An error thrown by `solve` itself instead propagates out of `run`
uncaught, with no failure result and no revert, as the counterexample
shows.) -/
theorem runner_fail_stops {R T X W E : Type} (sc : Scenario R T X W E) (w0 : W)
    (rets : List (SolveRet X W E)) (pre : List (List (Solution X W E)))
    (bad : List (Solution X W E)) (post : List (List (Solution X W E))) (e : E)
    (hsolve : solveAll sc.constraints sc.requirements (sc.initializer w0) w0 = .ok rets)
    (hsplit : combos ([[identity]] ++ rets.map mapSolution) = pre ++ bad :: post)
    (hpre : ∀ c ∈ pre, ∃ v, (trialOutcome sc c w0).1 = .ok v)
    (hbad : (trialOutcome sc bad w0).1 = .error e) :
    ∃ r : RunResult E,
      (run sc w0).1 = .ok r ∧ r.error = some e ∧ r.totalGas = 0 ∧
      r.numSolutionSets = pre.length + 1 ∧
      (run sc w0).2.trials = pre.length + 1 ∧
      (run sc w0).2.reverts = pre.length + 1 := by
  obtain ⟨ls2, h2, hn, ht, hr, hw, hsn⟩ :=
    runCombos_fail sc bad post e pre (initLS w0) rfl hpre hbad
  have hrun : run sc w0 = (.ok (mkFailure ls2 e), ls2) := by
    simp only [run, hsolve]
    rw [hsplit, h2]
  have hn0 : ls2.numSolutionSets = (initLS w0).numSolutionSets + pre.length := hn
  have ht0 : ls2.trials = (initLS w0).trials + pre.length + 1 := ht
  have hr0 : ls2.reverts = (initLS w0).reverts + pre.length + 1 := hr
  simp only [initLS] at hn0 ht0 hr0
  refine ⟨mkFailure ls2 e, by rw [hrun], rfl, rfl, ?_, ?_, ?_⟩
  · have : (mkFailure ls2 e).numSolutionSets = ls2.numSolutionSets + 1 := rfl
    omega
  · rw [hrun]
    show ls2.trials = _
    omega
  · rw [hrun]
    show ls2.reverts = _
    omega

/-- C2 witness: `scFail2` has 6 combinations and its property throws on the
2nd; the run reports failure with `numSolutionSets = 2`, and only 2 trials
(and 2 reverts) ever happen — combinations 3 through 6 are not executed. -/
theorem runner_fail_stops_witness :
    ∃ r : RunResult String,
      (run scFail2 0).1 = .ok r ∧ r.error = some "boom" ∧ r.totalGas = 0 ∧
      r.numSolutionSets = 2 ∧
      (run scFail2 0).2.trials = 2 ∧ (run scFail2 0).2.reverts = 2 := by
  obtain ⟨r, h1, h2, h3, h4, h5, h6⟩ :=
    runner_fail_stops scFail2 0
      [.listRet [addSol 0, addSol 10], .listRet [addSol 0, addSol 1, addSol 2]]
      [[identity, addSol 0, addSol 0]]
      [identity, addSol 0, addSol 1]
      [[identity, addSol 0, addSol 2], [identity, addSol 10, addSol 0],
       [identity, addSol 10, addSol 1], [identity, addSol 10, addSol 2]]
      "boom" rfl rfl
      (by
        intro c hc
        simp only [List.mem_singleton] at hc
        subst hc
        exact ⟨(none, 0), rfl⟩)
      rfl
  exact ⟨r, h1, h2, h3, by simpa using h4, by simpa using h5, by simpa using h6⟩

/-- C7 counterexample: the claim says `mapSolution` always yields a non-empty
list, but a constraint whose `solve` resolves to an empty array of solutions
normalizes to the empty list (`asList([])` is `[]`), making the whole
enumeration empty (the runner even reports such scenarios as having an "empty
constraint solution space"). -/
theorem mapSolution_empty_counterexample :
    mapSolution (SolveRet.listRet ([] : List (Solution Nat Nat String))) = [] :=
  rfl

/-- C7 (amended): `mapSolution` maps a null/absent solve result to exactly one
solution, the identity solution, which returns the given context unchanged
and never mutates the world; a single solution is wrapped into a singleton
and a list is kept as is (so the result is non-empty except when `solve`
returns an empty list). -/
theorem mapSolution_cases {X W E : Type} (s : Solution X W E)
    (ss : List (Solution X W E)) (ctx : X) (w : W) :
    mapSolution (SolveRet.nullRet : SolveRet X W E) = [identity] ∧
    (identity : Solution X W E) ctx w = .ok (some ctx, w) ∧
    mapSolution (SolveRet.single s) = [s] ∧
    mapSolution (SolveRet.listRet ss) = ss :=
  ⟨rfl, rfl, rfl, rfl⟩

/-- C8: for every scenario and initial world, the runner's snapshot/revert is
a strict bracket: it performs exactly one revert-and-snapshot per started
trial (whether the trial completed or threw), the snapshot stays the initial
baseline, the world is back at the baseline when the run returns, and every
trial starts from the identical snapshot baseline `w0`. -/
theorem runner_snapshot_bracket {R T X W E : Type} (sc : Scenario R T X W E) (w0 : W) :
    (run sc w0).2.snap = w0 ∧
    (run sc w0).2.world = w0 ∧
    (run sc w0).2.reverts = (run sc w0).2.trials ∧
    ∀ w ∈ (run sc w0).2.trialWorlds, w = w0 := by
  rcases hs : solveAll sc.constraints sc.requirements (sc.initializer w0) w0 with e | rets
  · refine ⟨?_, ?_, ?_, ?_⟩ <;> simp [run, hs, initLS]
  · obtain ⟨k, hsn, hw, ht, hr, htw⟩ :=
      runCombos_bracket sc (combos ([[identity]] ++ rets.map mapSolution)) (initLS w0) rfl
    have hrun : run sc w0
        = (.ok (runCombos sc (combos ([[identity]] ++ rets.map mapSolution)) (initLS w0)).1,
           (runCombos sc (combos ([[identity]] ++ rets.map mapSolution)) (initLS w0)).2) := by
      simp only [run, hs]
    rw [hrun]
    refine ⟨hsn, hw, ?_, ?_⟩
    · show (runCombos sc (combos ([[identity]] ++ rets.map mapSolution)) (initLS w0)).2.reverts
        = (runCombos sc (combos ([[identity]] ++ rets.map mapSolution)) (initLS w0)).2.trials
      have ht1 : (runCombos sc (combos ([[identity]] ++ rets.map mapSolution)) (initLS w0)).2.trials
          = 0 + k := ht
      have hr1 : (runCombos sc (combos ([[identity]] ++ rets.map mapSolution)) (initLS w0)).2.reverts
          = 0 + k := hr
      omega
    · intro w hwm
      replace hwm : w ∈ (runCombos sc (combos ([[identity]] ++ rets.map mapSolution))
          (initLS w0)).2.trialWorlds := hwm
      rw [htw] at hwm
      have hnil : (initLS w0).trialWorlds = [] := rfl
      rw [hnil] at hwm
      simp only [List.nil_append, List.mem_replicate] at hwm
      exact hwm.2

/-! ## Claims about the deployment manager -/

/-- One-step evaluation of `retry` on a successful invocation. -/
theorem retry_ok {E A : Type} (op : Nat → Except E A) (retries k : Nat) (a : A)
    (h : op k = .ok a) : retry op retries k = (.ok a, k + 1) := by
  rw [retry.eq_def, h]

/-- One-step evaluation of `retry` on a failing invocation with no budget. -/
theorem retry_err_zero {E A : Type} (op : Nat → Except E A) (k : Nat) (e : E)
    (h : op k = .error e) : retry op 0 k = (.error e, k + 1) := by
  rw [retry.eq_def, h]

/-- One-step evaluation of `retry` on a failing invocation with budget left. -/
theorem retry_err_succ {E A : Type} (op : Nat → Except E A) (r k : Nat) (e : E)
    (h : op k = .error e) : retry op (r + 1) k = retry op r (k + 1) := by
  rw [retry.eq_def, h]

/-- Shifted retry specification: from invocation index `s ≤ N`, with the first
`N` invocations failing and invocation `N` (0-based) succeeding, a budget
covering the remaining failures yields success after invocation `N`, and a
smaller budget stops after invocation `s + R` with that invocation's error. -/
theorem retry_shift {E A : Type} (op : Nat → Except E A) (errs : Nat → E) (a : A) (N : Nat)
    (hfail : ∀ k < N, op k = .error (errs k)) (hsucc : op N = .ok a) :
    ∀ R s : Nat, s ≤ N →
      (N - s ≤ R → retry op R s = (.ok a, N + 1)) ∧
      (R < N - s → retry op R s = (.error (errs (s + R)), s + R + 1)) := by
  intro R
  induction R with
  | zero =>
      intro s hs
      constructor
      · intro hle
        have hNs : N = s := by omega
        subst hNs
        exact retry_ok op 0 _ a hsucc
      · intro hlt
        have he := hfail s (by omega)
        rw [retry_err_zero op s (errs s) he]
        simp
  | succ R ih =>
      intro s hs
      constructor
      · intro hle
        by_cases hsN : s = N
        · subst hsN
          exact retry_ok op (R + 1) _ a hsucc
        · have he := hfail s (by omega)
          have hrec := (ih (s + 1) (by omega)).1 (by omega)
          rw [retry_err_succ op R s (errs s) he]
          exact hrec
      · intro hlt
        have he := hfail s (by omega)
        have hrec := (ih (s + 1) (by omega)).2 (by omega)
        rw [retry_err_succ op R s (errs s) he]
        have harr : s + 1 + R = s + (R + 1) := by omega
        rw [harr] at hrec
        exact hrec

/-- C4: for an operation failing on its first `N` invocations and succeeding
on invocation `N + 1`, `DeploymentManager.retry` with budget `R ≥ N` succeeds
after exactly `N + 1` invocations; with budget `R < N` it performs exactly
`R + 1` invocations and fails with the last underlying error, propagated
unchanged. -/
theorem retry_invocations {E A : Type} (op : Nat → Except E A) (errs : Nat → E) (a : A)
    (N R : Nat)
    (hfail : ∀ k < N, op k = .error (errs k)) (hsucc : op N = .ok a) :
    (N ≤ R → retry op R 0 = (.ok a, N + 1)) ∧
    (R < N → retry op R 0 = (.error (errs R), R + 1)) := by
  have h := retry_shift op errs a N hfail hsucc R 0 (by omega)
  constructor
  · intro hle
    exact h.1 (by omega)
  · intro hlt
    have := h.2 (by omega)
    simpa using this

/-- C4 witness: an operation failing twice then returning 42, under budget 5,
succeeds after exactly 3 invocations; under budget 1 it fails after exactly 2
invocations with the underlying error. -/
theorem retry_invocations_witness :
    retry (fun k => if k < 2 then .error "rpc down" else .ok (42 : Nat)) 5 0
      = (.ok 42, 3) ∧
    retry (fun k => if k < 2 then .error "rpc down" else .ok (42 : Nat)) 1 0
      = (.error "rpc down", 2) := by
  have h5 := retry_invocations (fun k => if k < 2 then .error "rpc down" else .ok (42 : Nat))
    (fun _ => "rpc down") 42 2 5 (fun k hk => by simp [hk]) (by norm_num)
  have h1 := retry_invocations (fun k => if k < 2 then .error "rpc down" else .ok (42 : Nat))
    (fun _ => "rpc down") 42 2 1 (fun k hk => by simp [hk]) (by norm_num)
  exact ⟨h5.1 (by norm_num), h1.2 (by norm_num)⟩

/-- C6: `DeploymentManager.idempotent(condition, action, retries)`: when the
condition resolves false the action is never invoked (zero invocations, the
call resolves to `undefined`); when it resolves true the action runs exactly
once under the retry wrapper — the whole call equals `retry action retries` —
and in particular an action that succeeds immediately is invoked exactly once,
its result returned. -/
theorem idempotent_spec {E A : Type} (act : Nat → Except E A) (r : Nat) (a : A) :
    idempotent false act r = (none, 0) ∧
    idempotent true act r = (some (retry act r 0).1, (retry act r 0).2) ∧
    idempotent true (fun _ => (.ok a : Except E A)) r = (some (.ok a), 1) := by
  refine ⟨rfl, rfl, ?_⟩
  have h := retry_ok (fun _ : Nat => (.ok a : Except E A)) r 0 a rfl
  simp [idempotent, h]

/-- C5: `deploy`, `clone` and `existing` share the idempotency contract: with
the alias bound in the contract map and `force` unset, each returns the
existing handle with the manager state unchanged (no deployment, no alias
rebinding); with the alias unbound (or `force` set, for `deploy`/`clone`)
each performs the underlying construction, binds the alias via `putAlias`
(incrementing the deploy counter for `deploy`/`clone`) and returns the new
handle. -/
theorem dm_idempotency {C : Type} (addrOf : C → Address) (dm : DM C) (nm : Alias)
    (mk c : C) :
    (DM.contract dm nm = some c →
      DM.deploy addrOf dm nm mk false = (c, dm) ∧
      DM.clone addrOf dm nm mk false = (c, dm) ∧
      DM.existing addrOf dm nm mk = (c, dm)) ∧
    (DM.contract dm nm = none →
      DM.deploy addrOf dm nm mk false
        = (mk, DM.putAlias addrOf { dm with counter := dm.counter + 1 } nm mk) ∧
      DM.clone addrOf dm nm mk false
        = (mk, DM.putAlias addrOf { dm with counter := dm.counter + 1 } nm mk) ∧
      DM.existing addrOf dm nm mk = (mk, DM.putAlias addrOf dm nm mk)) ∧
    (DM.contract dm nm = some c →
      DM.deploy addrOf dm nm mk true
        = (mk, DM.putAlias addrOf { dm with counter := dm.counter + 1 } nm mk)) := by
  refine ⟨fun h => ?_, fun h => ?_, fun h => ?_⟩ <;>
    simp [DM.deploy, DM.clone, DM.existing, DM.deployNew, h]

/-- C5 witness: with `comet` bound, a non-forced `deploy` returns the bound
handle and changes nothing; with `timelock` unbound, `existing` imports,
binds the alias and returns the new handle. -/
theorem dm_idempotency_witness :
    DM.deploy (fun c => c) (⟨[("comet", "0xc")], [("comet", "0xc")], 0⟩ : DM String)
        "comet" "0xNEW" false
      = ("0xc", ⟨[("comet", "0xc")], [("comet", "0xc")], 0⟩) ∧
    DM.existing (fun c => c) (⟨[("comet", "0xc")], [("comet", "0xc")], 0⟩ : DM String)
        "timelock" "0xT"
      = ("0xT", DM.putAlias (fun c => c) ⟨[("comet", "0xc")], [("comet", "0xc")], 0⟩
          "timelock" "0xT") := by
  have h := dm_idempotency (fun c : String => c)
    (⟨[("comet", "0xc")], [("comet", "0xc")], 0⟩ : DM String) "comet" "0xNEW" "0xc"
  have h2 := dm_idempotency (fun c : String => c)
    (⟨[("comet", "0xc")], [("comet", "0xc")], 0⟩ : DM String) "timelock" "0xT" "0xc"
  exact ⟨(h.1 rfl).1, (h2.2.1 rfl).2.2⟩

/-! ## Claims about the crawler -/

/-- C3: `maybeStore` on a crawler-built store (every stored address is a
non-empty hex address): re-binding an alias to its existing address is a
no-op returning `false` with the store unmodified; binding it to a different
address throws the fatal conflict error; binding an unbound alias inserts it
and returns `true`.  Hence within one crawl an alias maps to exactly one
address. -/
theorem maybeStore_spec (nm : Alias) (x y : Address) (m : List (Alias × Address)) :
    (storeGet m nm = some x → x ≠ "" → maybeStore nm x m = .ok (false, m)) ∧
    (storeGet m nm = some y → y ≠ "" → y ≠ x →
      maybeStore nm x m = .error (.aliasConflict nm y x)) ∧
    (storeGet m nm = none → maybeStore nm x m = .ok (true, storeSet m nm x)) := by
  refine ⟨fun h hne => ?_, fun h hne hnex => ?_, fun h => ?_⟩
  · simp [maybeStore, h, hne]
  · simp [maybeStore, h, hne, hnex]
  · simp [maybeStore, h]

/-- C3 witness: re-binding `comet` to its own address is a no-op, re-binding
it to a different address is the fatal conflict error, and binding the unbound
`timelock` inserts it. -/
theorem maybeStore_spec_witness :
    maybeStore "comet" "0xA" [("comet", "0xA")] = .ok (false, [("comet", "0xA")]) ∧
    maybeStore "comet" "0xB" [("comet", "0xA")]
      = .error (.aliasConflict "comet" "0xA" "0xB") ∧
    maybeStore "timelock" "0xB" [("comet", "0xA")]
      = .ok (true, storeSet [("comet", "0xA")] "timelock" "0xB") := by
  have h1 := maybeStore_spec "comet" "0xA" "0xA" [("comet", "0xA")]
  have h2 := maybeStore_spec "comet" "0xB" "0xA" [("comet", "0xA")]
  have h3 := maybeStore_spec "timelock" "0xB" "0xB" [("comet", "0xA")]
  exact ⟨h1.1 rfl (by decide), h2.2.1 rfl (by decide) (by decide), h3.2.2 rfl⟩

/-- C9: a crawl work item whose alias template has a relation-config entry but
whose address holds no contract code makes `crawl` throw the fatal
configuration error immediately (the crawler has no retry path); a work item
with no matching config and no contract code is aliased directly via
`maybeStore` into the alias map, leaving proxies, contracts and context
untouched and performing no recursion (the result is the same for every
remaining fuel). -/
theorem crawl_noncontract_spec {C RIC : Type} (env : CrawlEnv C RIC)
    (relations : String → Option (RelationConfig RIC)) (fuel : Nat)
    (node : DiscoverNode) (st : CrawlSt C) (cfg : RelationConfig RIC)
    (hnc : env.isContract node.address = false) :
    (relations (env.aliasTemplateKey node.aliasRender.template) = some cfg →
      crawl env relations (fuel + 1) node st
        = .error (.configNonContract node.aliasRender.template node.address)) ∧
    (relations (env.aliasTemplateKey node.aliasRender.template) = none →
      crawl env relations (fuel + 1) node st
        = match maybeStore (env.readAlias none node.aliasRender st.ctx) node.address
              st.aliases with
          | .error e => .error e
          | .ok (_, aliases1) =>
              .ok (env.readAlias none node.aliasRender st.ctx,
                   { st with aliases := aliases1 })) := by
  constructor
  · intro h
    simp [crawl, h, hnc]
  · intro h
    simp [crawl, h, hnc]

/-- C9 witness: with config present for `comet` and no code at the address,
the crawl is the fatal configuration error; with no config and no code, the
work item is aliased directly with proxies and contracts untouched, already at
the smallest fuel (no recursion happens). -/
theorem crawl_noncontract_witness :
    crawl envNoCode relsComet 1
        { address := "0xdead", aliasRender := { template := "comet", i := 0 } }
        ⟨[], [], [], []⟩
      = .error (.configNonContract "comet" "0xdead") ∧
    crawl envNoCode relsComet 1
        { address := "0xbeef", aliasRender := { template := "eoa", i := 0 } }
        ⟨[], [], [], []⟩
      = .ok ("eoa", ⟨[("eoa", "0xbeef")], [], [], []⟩) := by
  have h1 := (crawl_noncontract_spec envNoCode relsComet 0
    ⟨"0xdead", ⟨"comet", 0⟩⟩ ⟨[], [], [], []⟩ {} rfl).1 rfl
  have h2 := (crawl_noncontract_spec envNoCode relsComet 0
    ⟨"0xbeef", ⟨"eoa", 0⟩⟩ ⟨[], [], [], []⟩ {} rfl).2 rfl
  exact ⟨h1, h2.trans rfl⟩

/-- C10: in the delegate-discovery loop, once the first delegate has bound the
proxy alias to its address in the proxies map, processing a second delegate
with a different address throws the fatal conflict error from `maybeStore`
(each proxy alias is bound to at most one delegate address), while
re-discovering the same delegate address is a no-op on the proxies map and the
loop simply continues. -/
theorem delegates_unique_proxy {C RIC : Type} (env : CrawlEnv C RIC) (crawlF : CrawlF C)
    (nm : Alias) (address : Address) (contract c1 c2 : C)
    (n1 n2 : DiscoverNode) (rest : List DiscoverNode) (st st1 st3 : CrawlSt C)
    (a1 a2 : Alias)
    (h1 : crawlF n1 st = .ok (a1, st1))
    (h2 : storeGet st1.contracts a1 = some c1)
    (h3 : storeGet st1.proxies nm = none)
    (h4 : crawlF n2 { st1 with proxies := storeSet st1.proxies nm n1.address }
            = .ok (a2, st3))
    (h5 : storeGet st3.contracts a2 = some c2)
    (h6 : storeGet st3.proxies nm = some n1.address)
    (hne : n1.address ≠ "") :
    (n2.address ≠ n1.address →
      processDelegates env crawlF nm address contract (n1 :: n2 :: rest) st
        = .error (.aliasConflict nm n1.address n2.address)) ∧
    (n2.address = n1.address →
      maybeStore nm n2.address st3.proxies = .ok (false, st3.proxies) ∧
      processDelegates env crawlF nm address contract (n1 :: n2 :: rest) st
        = processDelegates env crawlF nm address
            (env.extendContract address c2 (env.extendContract address c1 contract))
            rest st3) := by
  constructor
  · intro hdiff
    simp [processDelegates, h1, h2, maybeStore, h3, h4, h5, h6, hne, Ne.symm hdiff]
  · intro hsame
    constructor
    · simp [maybeStore, h6, hne, hsame]
    · simp [processDelegates, h1, h2, maybeStore, h3, h4, h5, h6, hne, hsame]

/-- C10 witness: two delegate nodes with distinct addresses under one proxy
alias make the delegate loop throw the conflict error recorded by the proxies
map. -/
theorem delegates_unique_proxy_witness :
    processDelegates envNoCode crawlStub "p" "0xP" ()
        [⟨"0xI1", ⟨"impl1", 0⟩⟩, ⟨"0xI2", ⟨"impl2", 0⟩⟩] ⟨[], [], [], []⟩
      = .error (.aliasConflict "p" "0xI1" "0xI2") := by
  have h := delegates_unique_proxy envNoCode crawlStub "p" "0xP" () () ()
    ⟨"0xI1", ⟨"impl1", 0⟩⟩ ⟨"0xI2", ⟨"impl2", 0⟩⟩ []
    ⟨[], [], [], []⟩ ⟨[], [], [("impl1", ())], []⟩
    ⟨[], [("p", "0xI1")], [("impl1", ()), ("impl2", ())], []⟩
    "impl1" "impl2" rfl rfl rfl rfl rfl rfl (by decide)
  exact h.1 (by decide)

end Comet
